import Mathlib

/-
Verification of the table-driven SLR shift-reduce parsing engine of
`SLRparser.py`.

The engine is a Python class `SLRParser` holding a mixed stack (integers for
automaton states, `ParseNode` objects for grammar symbols), an input buffer of
token strings, an optional error message and an optional parse-tree root.
We embed the Python runtime values that can appear on the stack or in table
cells as the type `PyVal` (ints, strings, `ParseNode(symbol, children)`
objects), the parsing table and grammar as literal data, and the methods
`initialize`, `shift`, `reduce` and the `parse` main loop as functions on an
explicit engine state.  Python exceptions (IndexError on list indexing or
popping, KeyError on dict indexing, AttributeError when `startswith` is
called on an int, ValueError from `int`) are embedded as an explicit `crash`
outcome.
-/

namespace SLRPy

mutual
/-- A Python runtime value as used by the parser: an int (an automaton state
or a goto table entry), a string (an action table entry), or a `ParseNode`
object with a symbol and a list of children.  Children of a `ParseNode` are
themselves arbitrary values because Python's `reduce` pops untyped stack
entries into the children list. -/
inductive PyVal where
  | int (n : Nat)
  | str (s : String)
  | node (symbol : String) (children : PyValList)

/-- A Python list of `PyVal` (children list of a `ParseNode`). -/
inductive PyValList where
  | nil
  | cons (hd : PyVal) (tl : PyValList)
end

/-- Convert an ordinary Lean list into the mutual-inductive children list. -/
def plOf : List PyVal → PyValList
  | [] => .nil
  | x :: xs => .cons x (plOf xs)

/-- Length of a children list. -/
def PyValList.length : PyValList → Nat
  | .nil => 0
  | .cons _ t => 1 + t.length

/-- The SLR parsing table of the source, transliterated cell by cell: a Python
dict from state to a dict from symbol to a value that is either an action
string (shift/reduce/accept) or a bare goto state integer. -/
def SLR_parsing_table : List (Nat × List (String × PyVal)) := [
  (0, [("vtype", PyVal.str "s4"),
    ("$", PyVal.str "r3"),
    ("CODE", PyVal.int 1),
    ("VDECL", PyVal.int 2),
    ("FDECL", PyVal.int 3)]),
  (1, [("$", PyVal.str "acc")]),
  (2, [("vtype", PyVal.str "s4"),
    ("$", PyVal.str "r3"),
    ("CODE", PyVal.int 5),
    ("VDECL", PyVal.int 2),
    ("FDECL", PyVal.int 3)]),
  (3, [("vtype", PyVal.str "s4"),
    ("$", PyVal.str "r3"),
    ("CODE", PyVal.int 6),
    ("VDECL", PyVal.int 2),
    ("FDECL", PyVal.int 3)]),
  (4, [("id", PyVal.str "s7"),
    ("ASSIGN", PyVal.int 8)]),
  (5, [("$", PyVal.str "r1")]),
  (6, [("$", PyVal.str "r2")]),
  (7, [("semi", PyVal.str "s9"),
    ("assign", PyVal.str "s11"),
    ("lparen", PyVal.str "s10")]),
  (8, [("semi", PyVal.str "s12")]),
  (9, [("vtype", PyVal.str "r4"),
    ("id", PyVal.str "r4"),
    ("rbrace", PyVal.str "r4"),
    ("if", PyVal.str "r4"),
    ("while", PyVal.str "r4"),
    ("return", PyVal.str "r4"),
    ("$", PyVal.str "r4")]),
  (10, [("vtype", PyVal.str "s14"),
    ("rparen", PyVal.str "r20"),
    ("ARG", PyVal.int 13)]),
  (11, [("id", PyVal.str "s23"),
    ("literal", PyVal.str "s17"),
    ("character", PyVal.str "s18"),
    ("boolstr", PyVal.str "s19"),
    ("lparen", PyVal.str "s22"),
    ("num", PyVal.str "s24"),
    ("RHS", PyVal.int 15),
    ("EXPR", PyVal.int 16),
    ("EXPR’", PyVal.int 20),
    ("EXPR’’", PyVal.int 21)]),
  (12, [("vtype", PyVal.str "r5"),
    ("id", PyVal.str "r5"),
    ("rbrace", PyVal.str "r5"),
    ("if", PyVal.str "r5"),
    ("while", PyVal.str "r5"),
    ("return", PyVal.str "r5"),
    ("$", PyVal.str "r5")]),
  (13, [("rparen", PyVal.str "s25")]),
  (14, [("id", PyVal.str "s26")]),
  (15, [("semi", PyVal.str "r6")]),
  (16, [("semi", PyVal.str "r7"),
    ("addsub", PyVal.str "s27")]),
  (17, [("semi", PyVal.str "r8")]),
  (18, [("semi", PyVal.str "r9")]),
  (19, [("semi", PyVal.str "r10")]),
  (20, [("semi", PyVal.str "r12"),
    ("addsub", PyVal.str "r12"),
    ("multdiv", PyVal.str "s28"),
    ("rparen", PyVal.str "r12")]),
  (21, [("semi", PyVal.str "r14"),
    ("addsub", PyVal.str "r14"),
    ("multdiv", PyVal.str "r14"),
    ("rparen", PyVal.str "r14")]),
  (22, [("id", PyVal.str "s23"),
    ("lparen", PyVal.str "s22"),
    ("num", PyVal.str "s24"),
    ("EXPR", PyVal.int 29),
    ("EXPR’", PyVal.int 20),
    ("EXPR’’", PyVal.int 21)]),
  (23, [("semi", PyVal.str "r16"),
    ("addsub", PyVal.str "r16"),
    ("multdiv", PyVal.str "r16"),
    ("rparen", PyVal.str "r16")]),
  (24, [("semi", PyVal.str "r17"),
    ("addsub", PyVal.str "r17"),
    ("multdiv", PyVal.str "r17"),
    ("rparen", PyVal.str "r17")]),
  (25, [("lbrace", PyVal.str "s30")]),
  (26, [("rparen", PyVal.str "r22"),
    ("comma", PyVal.str "s32"),
    ("MOREARGS", PyVal.int 31)]),
  (27, [("id", PyVal.str "s23"),
    ("lparen", PyVal.str "s22"),
    ("num", PyVal.str "s24"),
    ("EXPR’", PyVal.int 33),
    ("EXPR’’", PyVal.int 21)]),
  (28, [("id", PyVal.str "s23"),
    ("lparen", PyVal.str "s22"),
    ("num", PyVal.str "s24"),
    ("EXPR’’", PyVal.int 34)]),
  (29, [("addsub", PyVal.str "s27"),
    ("rparen", PyVal.str "s35")]),
  (30, [("vtype", PyVal.str "s42"),
    ("id", PyVal.str "s43"),
    ("rbrace", PyVal.str "r24"),
    ("if", PyVal.str "s40"),
    ("while", PyVal.str "s41"),
    ("return", PyVal.str "r24"),
    ("VDECL", PyVal.int 38),
    ("ASSIGN", PyVal.int 39),
    ("BLOCK", PyVal.int 36),
    ("STMT", PyVal.int 37)]),
  (31, [("rparen", PyVal.str "r19")]),
  (32, [("vtype", PyVal.str "s44")]),
  (33, [("semi", PyVal.str "r11"),
    ("addsub", PyVal.str "r11"),
    ("multdiv", PyVal.str "s28"),
    ("rparen", PyVal.str "r11")]),
  (34, [("semi", PyVal.str "r13"),
    ("addsub", PyVal.str "r13"),
    ("multdiv", PyVal.str "r13"),
    ("rparen", PyVal.str "r13")]),
  (35, [("semi", PyVal.str "r15"),
    ("addsub", PyVal.str "r15"),
    ("multdiv", PyVal.str "r15"),
    ("rparen", PyVal.str "r15")]),
  (36, [("return", PyVal.str "s46"),
    ("RETURN", PyVal.int 45)]),
  (37, [("vtype", PyVal.str "s42"),
    ("id", PyVal.str "s43"),
    ("rbrace", PyVal.str "r24"),
    ("if", PyVal.str "s40"),
    ("while", PyVal.str "s41"),
    ("return", PyVal.str "r24"),
    ("VDECL", PyVal.int 38),
    ("ASSIGN", PyVal.int 39),
    ("BLOCK", PyVal.int 47),
    ("STMT", PyVal.int 37)]),
  (38, [("vtype", PyVal.str "r25"),
    ("id", PyVal.str "r25"),
    ("rbrace", PyVal.str "r25"),
    ("if", PyVal.str "r25"),
    ("while", PyVal.str "r25"),
    ("return", PyVal.str "r25")]),
  (39, [("semi", PyVal.str "s48")]),
  (40, [("lparen", PyVal.str "s49")]),
  (41, [("lparen", PyVal.str "s50")]),
  (42, [("id", PyVal.str "s51"),
    ("ASSIGN", PyVal.int 8)]),
  (43, [("assign", PyVal.str "s11")]),
  (44, [("id", PyVal.str "s52")]),
  (45, [("rbrace", PyVal.str "s53")]),
  (46, [("id", PyVal.str "s23"),
    ("literal", PyVal.str "s17"),
    ("character", PyVal.str "s18"),
    ("boolstr", PyVal.str "s19"),
    ("lparen", PyVal.str "s22"),
    ("num", PyVal.str "s24"),
    ("RHS", PyVal.int 54),
    ("EXPR", PyVal.int 16),
    ("EXPR’", PyVal.int 20),
    ("EXPR’’", PyVal.int 21)]),
  (47, [("rbrace", PyVal.str "r23"),
    ("return", PyVal.str "r23")]),
  (48, [("vtype", PyVal.str "r26"),
    ("id", PyVal.str "r26"),
    ("rbrace", PyVal.str "r26"),
    ("if", PyVal.str "r26"),
    ("while", PyVal.str "r26"),
    ("return", PyVal.str "r26")]),
  (49, [("boolstr", PyVal.str "s57"),
    ("COND", PyVal.int 55),
    ("COND’", PyVal.int 56)]),
  (50, [("boolstr", PyVal.str "s57"),
    ("COND", PyVal.int 58),
    ("COND’", PyVal.int 56)]),
  (51, [("semi", PyVal.str "s9"),
    ("assign", PyVal.str "s11")]),
  (52, [("rparen", PyVal.str "r22"),
    ("comma", PyVal.str "s32"),
    ("MOREARGS", PyVal.int 59)]),
  (53, [("vtype", PyVal.str "r18"),
    ("$", PyVal.str "r18")]),
  (54, [("semi", PyVal.str "s60")]),
  (55, [("rparen", PyVal.str "s61"),
    ("comp", PyVal.str "s62"),
    ("COND", PyVal.int 62),
    ("COND’", PyVal.int 57)]),
  (56, [("rparen", PyVal.str "r30"),
    ("comp", PyVal.str "r30")]),
  (57, [("rparen", PyVal.str "r31"),
    ("comp", PyVal.str "r31")]),
  (58, [("rparen", PyVal.str "s63"),
    ("comp", PyVal.str "s62"),
    ("COND", PyVal.int 62),
    ("COND’", PyVal.int 57)]),
  (59, [("rparen", PyVal.str "r21")]),
  (60, [("rbrace", PyVal.str "r34")]),
  (61, [("lbrace", PyVal.str "s64")]),
  (62, [("boolstr", PyVal.str "s57"),
    ("COND’", PyVal.int 65)]),
  (63, [("lbrace", PyVal.str "s66")]),
  (64, [("vtype", PyVal.str "s42"),
    ("id", PyVal.str "s43"),
    ("rbrace", PyVal.str "r24"),
    ("if", PyVal.str "s40"),
    ("while", PyVal.str "s41"),
    ("return", PyVal.str "r24"),
    ("VDECL", PyVal.int 38),
    ("ASSIGN", PyVal.int 39),
    ("BLOCK", PyVal.int 67),
    ("STMT", PyVal.int 37)]),
  (65, [("rparen", PyVal.str "r29"),
    ("return", PyVal.str "r29")]),
  (66, [("vtype", PyVal.str "s42"),
    ("id", PyVal.str "s43"),
    ("rbrace", PyVal.str "r24"),
    ("if", PyVal.str "s40"),
    ("while", PyVal.str "s41"),
    ("return", PyVal.str "r24"),
    ("VDECL", PyVal.int 38),
    ("ASSIGN", PyVal.int 39),
    ("BLOCK", PyVal.int 68),
    ("STMT", PyVal.int 37)]),
  (67, [("rbrace", PyVal.str "s69")]),
  (68, [("rbrace", PyVal.str "s70")]),
  (69, [("vtype", PyVal.str "r33"),
    ("id", PyVal.str "r33"),
    ("rbrace", PyVal.str "r33"),
    ("if", PyVal.str "r33"),
    ("while", PyVal.str "r33"),
    ("else", PyVal.str "s72"),
    ("return", PyVal.str "r33"),
    ("ELSE", PyVal.int 71)]),
  (70, [("vtype", PyVal.str "r28"),
    ("id", PyVal.str "r28"),
    ("rbrace", PyVal.str "r28"),
    ("if", PyVal.str "r28"),
    ("while", PyVal.str "r28"),
    ("return", PyVal.str "r28")]),
  (71, [("vtype", PyVal.str "r27"),
    ("id", PyVal.str "r27"),
    ("rbrace", PyVal.str "r27"),
    ("if", PyVal.str "r27"),
    ("while", PyVal.str "r27"),
    ("return", PyVal.str "r27")]),
  (72, [("lbrace", PyVal.str "s73")]),
  (73, [("vtype", PyVal.str "s42"),
    ("id", PyVal.str "s43"),
    ("rbrace", PyVal.str "r24"),
    ("if", PyVal.str "s40"),
    ("while", PyVal.str "s41"),
    ("return", PyVal.str "r24"),
    ("VDECL", PyVal.int 38),
    ("ASSIGN", PyVal.int 39),
    ("BLOCK", PyVal.int 74),
    ("STMT", PyVal.int 37)]),
  (74, [("rbrace", PyVal.str "s75")]),
  (75, [("vtype", PyVal.str "r32"),
    ("id", PyVal.str "r32"),
    ("rbrace", PyVal.str "r32"),
    ("if", PyVal.str "r32"),
    ("while", PyVal.str "r32"),
    ("return", PyVal.str "r32")])]

/-- The SLR grammar of the source: productions as (LHS, RHS symbol list),
indexed 0..34; an epsilon production has RHS ["epsilon"]. -/
def SLR_grammar : List (String × List String) := [
  ("S\x27", ["CODE"]),
  ("CODE", ["VDECL", "CODE"]),
  ("CODE", ["FDECL", "CODE"]),
  ("CODE", ["epsilon"]),
  ("VDECL", ["vtype", "id", "semi"]),
  ("VDECL", ["vtype", "ASSIGN", "semi"]),
  ("ASSIGN", ["id", "assign", "RHS"]),
  ("RHS", ["EXPR"]),
  ("RHS", ["literal"]),
  ("RHS", ["character"]),
  ("RHS", ["boolstr"]),
  ("EXPR", ["EXPR", "addsub", "EXPR’"]),
  ("EXPR", ["EXPR’"]),
  ("EXPR’", ["EXPR’", "multdiv", "EXPR’’"]),
  ("EXPR’", ["EXPR’’"]),
  ("EXPR’’", ["lparen", "EXPR", "rparen"]),
  ("EXPR’’", ["id"]),
  ("EXPR’’", ["num"]),
  ("FDECL", ["vtype", "id", "lparen", "ARG", "rparen", "lbrace", "BLOCK", "RETURN", "rbrace"]),
  ("ARG", ["vtype", "id", "MOREARGS"]),
  ("ARG", ["epsilon"]),
  ("MOREARGS", ["comma", "vtype", "id", "MOREARGS"]),
  ("MOREARGS", ["epsilon"]),
  ("BLOCK", ["STMT", "BLOCK"]),
  ("BLOCK", ["epsilon"]),
  ("STMT", ["VDECL"]),
  ("STMT", ["ASSIGN", "semi"]),
  ("STMT", ["if", "lparen", "COND", "rparen", "lbrace", "BLOCK", "rbrace", "ELSE"]),
  ("STMT", ["while", "lparen", "COND", "rparen", "lbrace", "BLOCK", "rbrace"]),
  ("COND", ["COND", "comp", "COND’"]),
  ("COND", ["COND’"]),
  ("COND’", ["boolstr"]),
  ("ELSE", ["else", "lbrace", "BLOCK", "rbrace"]),
  ("ELSE", ["epsilon"]),
  ("RETURN", ["return", "RHS", "semi"])]

/-- Look up a state's row of the table (Python `SLR_parsing_table[state]`;
`none` corresponds to a KeyError). -/
def rowLookup (state : Nat) : Option (List (String × PyVal)) :=
  SLR_parsing_table.lookup state

/-- Python `str.startswith` restricted to a single-character prefix, as used
by `parse` on action strings. -/
def pyStartsWith (s : String) (c : Char) : Bool :=
  match s.data with
  | [] => false
  | a :: _ => a == c

/-- Helper for `pyInt`: accumulate the value of a digit string. -/
def pyIntAux : List Char → Nat → Option Nat
  | [], acc => some acc
  | c :: cs, acc =>
    if c.isDigit then pyIntAux cs (acc * 10 + (c.toNat - 48)) else none

/-- Python `int(s)` on the digit substrings the parser extracts from action
strings; `none` corresponds to a ValueError. -/
def pyInt (s : String) : Option Nat :=
  match s.data with
  | [] => none
  | l => pyIntAux l 0

/-- The mutable state of a `SLRParser` instance.  The stack is kept with its
head as the Python list's last element (top of stack). -/
structure SLRParser where
  stack : List PyVal
  input_buffer : List String
  error_message : Option String
  parse_tree : Option PyVal


/-- `SLRParser.__init__`: empty stack and buffer, no error message, no tree. -/
def mkSLRParser : SLRParser :=
  { stack := [], input_buffer := [], error_message := none, parse_tree := none }

/-- `SLRParser.initialize`: reset the stack to the single initial state 0 and
set the input buffer to the tokens with the end marker appended. -/
def SLRParser.initialize (st : SLRParser) (input_tokens : List String) : SLRParser :=
  { st with stack := [PyVal.int 0], input_buffer := input_tokens ++ ["$"] }

/-- `SLRParser.get_error_message`. -/
def SLRParser.get_error_message (st : SLRParser) : Option String :=
  st.error_message

/-- The f-string diagnostic built at an undefined main-loop lookup. -/
def errorMessageFor (state : Nat) (symbol : String) : String :=
  "Syntax Error: state " ++ toString state ++ "에서 symbol \x27" ++ symbol ++
    "\x27에 대한 action 없음"

/-- `SLRParser.shift` after the target state string has been parsed by
`int(...)`: pop the first input symbol, push a fresh node for it and then the
target state.  `none` corresponds to the IndexError of popping from an empty
input buffer. -/
def SLRParser.shift (st : SLRParser) (state : Nat) : Option SLRParser :=
  match st.input_buffer with
  | [] => none
  | symbol :: rest =>
    some { st with
            input_buffer := rest,
            stack := PyVal.int state :: PyVal.node symbol (plOf []) :: st.stack }

/-- Pop `k` (state, symbol) pairs off the stack, collecting the symbol
entries; Python inserts each popped symbol at position 0 of `children`, so the
first-popped (topmost) entry ends up rightmost.  `none` corresponds to an
IndexError from popping an exhausted stack. -/
def popPairs : Nat → List PyVal → Option (List PyVal × List PyVal)
  | 0, stk => some ([], stk)
  | k + 1, stk =>
    match stk with
    | _ :: second :: rest =>
      match popPairs k rest with
      | some (children, stk2) => some (children ++ [second], stk2)
      | none => none
    | _ => none

/-- Result of `SLRParser.reduce`: `ok` is a `return True`, `fail` a
`return False` (undefined goto; note no error message is recorded), `crash`
an uncaught Python exception. -/
inductive ReduceResult where
  | ok (st : SLRParser)
  | fail (st : SLRParser)
  | crash


/-- `SLRParser.reduce rule_number`: parse the rule number, fetch the
production, pop `len(rhs)` pairs unless the RHS is the epsilon marker, push
the new node, and push the goto entry found for (exposed state, LHS).  The
current state and symbol parameters of the Python method are unused there and
omitted. -/
def SLRParser.reduce (st : SLRParser) (rule_number : String) : ReduceResult :=
  match pyInt rule_number with
  | none => .crash
  | some k =>
    match SLR_grammar.get? k with
    | none => .crash
    | some (lhs, rhs) =>
      let popped : Option (List PyVal × List PyVal) :=
        if rhs = ["epsilon"] then some ([], st.stack) else popPairs rhs.length st.stack
      match popped with
      | none => .crash
      | some (children, stk) =>
        let stk2 := PyVal.node lhs (plOf children) :: stk
        match stk2.get? 1 with
        | none => .crash
        | some (PyVal.node _ _) => .crash
        | some (PyVal.str _) => .crash
        | some (PyVal.int state) =>
          match rowLookup state with
          | none => .crash
          | some row =>
            match row.lookup lhs with
            | none => .fail { st with stack := stk2 }
            | some new_state => .ok { st with stack := new_state :: stk2 }

/-- One dispatch of the `parse` main loop. -/
inductive StepResult where
  | next (st : SLRParser)
  | done (b : Bool) (st : SLRParser)
  | crash


/-- One iteration of the `while True` loop of `SLRParser.parse`: read the top
state and the first input symbol, look the action up, and dispatch on its
string prefix.  An integer (goto) cell makes Python call `startswith` on an
int, an AttributeError, hence `crash`. -/
def SLRParser.step (st : SLRParser) : StepResult :=
  match st.stack with
  | [] => .crash
  | top :: _ =>
    match st.input_buffer with
    | [] => .crash
    | symbol :: _ =>
      match top with
      | PyVal.str _ => .crash
      | PyVal.node _ _ => .crash
      | PyVal.int state =>
        match rowLookup state with
        | none => .crash
        | some row =>
          match row.lookup symbol with
          | none =>
            .done false { st with error_message := some (errorMessageFor state symbol) }
          | some (PyVal.int _) => .crash
          | some (PyVal.node _ _) => .crash
          | some (PyVal.str action) =>
            if pyStartsWith action 's' then
              match pyInt (action.drop 1) with
              | none => .crash
              | some t =>
                match st.shift t with
                | some st2 => .next st2
                | none => .crash
            else if pyStartsWith action 'r' then
              match st.reduce (action.drop 1) with
              | .ok st2 => .next st2
              | .fail st2 => .done false st2
              | .crash => .crash
            else if action == "acc" then
              match st.stack.reverse.get? 1 with
              | some root => .done true { st with parse_tree := some root }
              | none => .crash
            else
              .done false st

/-- Outcome of running `parse` to completion: a returned boolean together
with the engine state at return, or an uncaught exception. -/
inductive Outcome where
  | finished (b : Bool) (st : SLRParser)
  | crashed


/-- Run the `parse` loop for at most `n` iterations; `none` means the loop
was still running after `n` iterations. -/
def run : Nat → SLRParser → Option Outcome
  | 0, _ => none
  | n + 1, st =>
    match st.step with
    | .next st2 => run n st2
    | .done b st2 => some (.finished b st2)
    | .crash => some .crashed

/-- The engine state at the start of loop iteration `n` (`none` once the loop
has ended before reaching iteration `n`). -/
def afterSteps : Nat → SLRParser → Option SLRParser
  | 0, st => some st
  | n + 1, st =>
    match st.step with
    | .next st2 => afterSteps n st2
    | _ => none

/-- A freshly constructed parser initialized on the given tokens, as the
script's main code does. -/
def parserInit (tokens : List String) : SLRParser :=
  mkSLRParser.initialize tokens

mutual
/-- `SLRParser.print_parse_tree`, with printing embedded as the list of
(indentation level, symbol) pairs in output order (pre-order, children left to
right).  On an int or string (which Python would fail to print via
`.symbol`) the output is empty; real parse trees contain only nodes. -/
def print_parse_tree : PyVal → Nat → List (Nat × String)
  | .int _, _ => []
  | .str _, _ => []
  | .node s cs, level => (level, s) :: printChildren cs (level + 1)

/-- Print a children list in order at the given level. -/
def printChildren : PyValList → Nat → List (Nat × String)
  | .nil, _ => []
  | .cons c cs, level => print_parse_tree c level ++ printChildren cs level
end

/-! ### Invariant and termination machinery

The `parse` loop is analysed through a well-formedness invariant on engine
states (`wfStack`, `wfBuf`) and a numeric measure (`engineMeasure`) that
strictly decreases at every `next` step.  The finitely many facts about the
concrete table that these proofs need are bundled into the decidable check
`tableOK`. -/

/-- State potential used by the termination measure: chosen so that every
reduce action of the table strictly decreases `engineMeasure`. -/
def V : Nat → Nat
  | 0 => 2 | 2 => 2 | 3 => 2 | 9 => 2 | 10 => 2 | 12 => 2
  | 16 => 1 | 17 => 1 | 18 => 1 | 19 => 1
  | 20 => 2 | 21 => 3 | 23 => 4 | 24 => 4
  | 26 => 2 | 30 => 2 | 34 => 1 | 35 => 2 | 37 => 2 | 38 => 3
  | 48 => 2 | 52 => 2 | 56 => 1 | 57 => 2
  | 64 => 2 | 66 => 2 | 69 => 2 | 73 => 2
  | _ => 0

/-- The state a table cell pushes on top of a freshly pushed node: the parsed
target of a shift action string, or a goto integer. -/
def cellTarget : PyVal → Option Nat
  | PyVal.str a => if pyStartsWith a 's' then pyInt (a.drop 1) else none
  | PyVal.int n => some n
  | PyVal.node _ _ => none

/-- `edgeOk u σ v`: in a machine-built stack, state `v` can sit directly on a
node with symbol `σ` that sits directly on state `u`.  The two refinements
(`57` only entered over `boolstr`, `62` only over `comp`) cut the spurious
goto entries of rows 55 and 58, which no reachable reduction ever uses; they
are what make the measure argument and the child/RHS correspondence go
through, and their preservation is itself part of the proof. -/
def edgeOk (u : Nat) (σ : String) (v : Nat) : Bool :=
  match rowLookup u with
  | none => false
  | some row =>
    match row.lookup σ with
    | none => false
    | some c => cellTarget c == some v && (v != 57 || σ == "boolstr") && (v != 62 || σ == "comp")

/-- All `(u, σ)` with `edgeOk u σ v`, by enumeration of the table. -/
def predsOf (v : Nat) : List (Nat × String) :=
  (List.range 76).flatMap (fun u =>
    match rowLookup u with
    | none => []
    | some row => row.filterMap (fun p =>
        if cellTarget p.2 == some v && (v != 57 || p.1 == "boolstr") && (v != 62 || p.1 == "comp")
        then some (u, p.1) else none))

/-- All backward chains of `k` edges ending in state `s`: the symbol sequence
read left to right together with the exposed state at the far end. -/
def backChains : Nat → Nat → List (List String × Nat)
  | 0, s => [([], s)]
  | k + 1, s =>
    (predsOf s).flatMap (fun p =>
      (backChains k p.1).map (fun c => (c.1 ++ [p.2], c.2)))

/-- The goto lookup a reduction with LHS `lhs`, exposed state `u`, popped
width `k` and acting state `s` performs is defined, lands on a non-refined
state with a table row, and decreases the measure. -/
def gotoCellOK (s : Nat) (k : Nat) (u : Nat) (lhs : String) : Bool :=
  match rowLookup u with
  | none => false
  | some rowU =>
    match rowU.lookup lhs with
    | some (PyVal.int t) =>
      t != 57 && t != 62 && !(rowLookup t).isNone && V s + k ≥ V t + 2
    | _ => false

/-- Per-cell check of the parsing table, at state `s` with key `x` and cell
`c`; see `tableOK`. -/
def cellOK (s : Nat) (x : String) (c : PyVal) : Bool :=
  match c with
  | PyVal.node _ _ => false
  | PyVal.int t => t != 0 && !(rowLookup t).isNone
  | PyVal.str a =>
    if pyStartsWith a 's' then
      match pyInt (a.drop 1) with
      | none => false
      | some t =>
        x != "$" && t != 0 && !(rowLookup t).isNone && V t ≤ 4 &&
          (t != 57 || x == "boolstr") && (t != 62 || x == "comp")
    else if pyStartsWith a 'r' then
      match pyInt (a.drop 1) with
      | none => false
      | some kk =>
        match SLR_grammar.get? kk with
        | none => false
        | some (lhs, rhs) =>
          if rhs = ["epsilon"] then
            gotoCellOK s 0 s lhs
          else
            decide (0 < rhs.length) &&
            (List.range rhs.length).all (fun j =>
              (backChains j s).all (fun cc => cc.2 != 0)) &&
            (backChains rhs.length s).all (fun cc =>
              cc.1 == rhs && gotoCellOK s rhs.length cc.2 lhs)
    else
      a == "acc" && s != 0

/-- Every cell of the concrete table passes `cellOK`: action strings parse,
shift targets and goto targets have rows and respect the edge refinements and
the measure inequalities, every backward chain of a reduce matches the
production's RHS and reaches a defined goto, and no chain bottoms out early. -/
def tableOK : Bool :=
  SLR_parsing_table.all (fun r => r.2.all (fun p => cellOK r.1 p.1 p.2))

/-- A token never hits an integer (goto) cell in any row: looking it up in
the main loop can therefore never produce the int on which Python's
`startswith` call raises. -/
def SafeToken (x : String) : Bool :=
  (List.range 76).all (fun s =>
    match rowLookup s with
    | none => true
    | some row =>
      match row.lookup x with
      | some (PyVal.int _) => false
      | _ => true)

/-- Is a children list empty. -/
def isNilL : PyValList → Bool
  | .nil => true
  | .cons _ _ => false

/-- The symbol of a value (the placeholder for Python values that are not
`ParseNode`s, which never occur among children of machine-built nodes). -/
def symOf : PyVal → String
  | .node s _ => s
  | .int _ => ""
  | .str _ => ""

/-- Symbols of a children list, left to right. -/
def symsOfL : PyValList → List String
  | .nil => []
  | .cons c t => symOf c :: symsOfL t

/-- Symbols of a plain list of values. -/
def symsOf (l : List PyVal) : List String := l.map symOf

/-- Some production of the grammar has this LHS and exactly this RHS. -/
def ruleMatches (lhs : String) (syms : List String) : Bool :=
  SLR_grammar.any (fun r => r.1 == lhs && r.2 == syms)

mutual
/-- The tree-shape invariant of claim C4, as a predicate on values: a
`ParseNode` whose children list is empty (a shifted terminal or an epsilon
reduction), or a `ParseNode` whose children's symbols, read left to right,
are exactly the RHS of a production with the node's symbol as LHS, all
children being such nodes as well.  Ints and strings are not parse nodes. -/
def treeOK : PyVal → Bool
  | .int _ => false
  | .str _ => false
  | .node s cs => treeOKL cs && (isNilL cs || ruleMatches s (symsOfL cs))

/-- `treeOK` on every element of a children list. -/
def treeOKL : PyValList → Bool
  | .nil => true
  | .cons c t => treeOK c && treeOKL t
end

/-- Number of `ParseNode` entries on the stack. -/
def countNodes : List PyVal → Nat
  | [] => 0
  | PyVal.node _ _ :: t => 1 + countNodes t
  | _ :: t => countNodes t

/-- The state on top of the stack (0 for malformed stacks, which the
invariant excludes). -/
def topState : List PyVal → Nat
  | PyVal.int s :: _ => s
  | _ => 0

/-- Well-formed machine stack: a single bottom state 0, or a state on a node
on a well-formed stack such that the table admits the state/node/state
adjacency (`edgeOk`) and the node satisfies the tree-shape invariant. -/
def wfStack : List PyVal → Bool
  | PyVal.int v :: rest =>
    match rest with
    | [] => v == 0
    | PyVal.node σ cs :: rest2 =>
      (match rest2 with
       | PyVal.int u :: _ => edgeOk u σ v
       | _ => false) && treeOK (PyVal.node σ cs) && wfStack rest2
    | _ => false
  | _ => false

/-- Well-formed input buffer: nonempty and ending with the end marker. -/
def wfBuf (l : List String) : Bool :=
  !l.isEmpty && (l.getLast? == some "$")

/-- The engine invariant maintained at the start of every loop iteration. -/
def EngineInv (st : SLRParser) : Prop :=
  wfStack st.stack = true ∧ wfBuf st.input_buffer = true

/-- The termination measure: strictly decreases at every `next` step of the
main loop. -/
def engineMeasure (st : SLRParser) : Nat :=
  6 * st.input_buffer.length + countNodes st.stack + V (topState st.stack)

/-- The alternation shape of claim C9: a state at the bottom, then
alternating node/state pairs (the list head is the stack top). -/
def altStack : List PyVal → Bool
  | PyVal.int _ :: rest =>
    match rest with
    | [] => true
    | PyVal.node _ _ :: rest2 => altStack rest2
    | _ => false
  | _ => false


/-- The parse tree of the accepted input `vtype id semi`. -/
def tree_vds : PyVal :=
  PyVal.node "CODE" (plOf [
    PyVal.node "VDECL" (plOf [
      PyVal.node "vtype" (plOf []), PyVal.node "id" (plOf []),
      PyVal.node "semi" (plOf [])]),
    PyVal.node "CODE" (plOf [])])

/-- The engine state at acceptance of the input `vtype id semi`. -/
def acceptState_vds : SLRParser :=
  { stack := [PyVal.int 1, tree_vds, PyVal.int 0],
    input_buffer := ["$"],
    error_message := none,
    parse_tree := some tree_vds }

/-- The engine state at rejection of the input `vtype vtype`. -/
def rejState_vtype_vtype : SLRParser :=
  { stack := [PyVal.int 4, PyVal.node "vtype" (plOf []), PyVal.int 0],
    input_buffer := ["vtype", "$"],
    error_message := some (errorMessageFor 4 "vtype"),
    parse_tree := none }

/-- The engine state after the epsilon reduction `CODE → epsilon` performed
on the empty input at the initial state. -/
def epsStepState : SLRParser :=
  { stack := [PyVal.int 1, PyVal.node "CODE" (plOf []), PyVal.int 0],
    input_buffer := ["$"],
    error_message := none,
    parse_tree := none }

/-- The engine state at acceptance of the empty input. -/
def acceptState_empty : SLRParser :=
  { stack := [PyVal.int 1, PyVal.node "CODE" (plOf []), PyVal.int 0],
    input_buffer := ["$"],
    error_message := none,
    parse_tree := some (PyVal.node "CODE" (plOf [])) }

/-- The engine state at the start of the third loop iteration on the input
`vtype id semi`. -/
def midState_vds : SLRParser :=
  { stack := [PyVal.int 7, PyVal.node "id" (plOf []), PyVal.int 4,
      PyVal.node "vtype" (plOf []), PyVal.int 0],
    input_buffer := ["semi", "$"],
    error_message := none,
    parse_tree := none }

/-! ### Proofs

First the decidable whole-table facts, then the structural lemmas about
well-formed stacks and single steps, then the theorems settling the claims. -/

set_option maxRecDepth 100000 in
theorem tableOK_true : tableOK = true := by decide

theorem safeToken_end : SafeToken "$" = true := by decide

theorem table_keys_lt : (SLR_parsing_table.map Prod.fst).all (fun u => decide (u < 76)) = true := by
  decide

/-- Association-list lookup implies membership of the key/value pair. -/
theorem lookup_mem {α β : Type} [BEq α] [LawfulBEq α] :
    ∀ {l : List (α × β)} {k : α} {v : β}, l.lookup k = some v → (k, v) ∈ l := by
  intro l
  induction l with
  | nil => intro k v h; simp [List.lookup] at h
  | cons p t ih =>
    intro k v h
    obtain ⟨a, b⟩ := p
    rw [List.lookup] at h
    cases hk : (k == a) with
    | false => rw [hk] at h; exact List.mem_cons_of_mem _ (ih h)
    | true =>
      rw [hk] at h
      obtain rfl : b = v := by injection h
      obtain rfl : k = a := eq_of_beq hk
      exact List.mem_cons_self _ _

theorem rowLookup_mem {s : Nat} {row : List (String × PyVal)} (h : rowLookup s = some row) :
    (s, row) ∈ SLR_parsing_table :=
  lookup_mem h

theorem rowLookup_lt {s : Nat} {row : List (String × PyVal)} (h : rowLookup s = some row) :
    s < 76 := by
  have hm : s ∈ SLR_parsing_table.map Prod.fst :=
    List.mem_map_of_mem Prod.fst (rowLookup_mem h)
  have hall := table_keys_lt
  rw [List.all_eq_true] at hall
  exact of_decide_eq_true (hall _ hm)

/-- Every looked-up table cell passes the per-cell check. -/
theorem cellOK_of {s : Nat} {row : List (String × PyVal)} {x : String} {c : PyVal}
    (hrow : rowLookup s = some row) (hc : row.lookup x = some c) :
    cellOK s x c = true := by
  have h1 := rowLookup_mem hrow
  have h2 := lookup_mem hc
  have ht := tableOK_true
  rw [tableOK, List.all_eq_true] at ht
  have ht2 := ht _ h1
  rw [List.all_eq_true] at ht2
  exact ht2 _ h2



/-- Boolean negation of `isNone` gives `isSome`. -/
theorem isSome_of_not_isNone {α : Type} {o : Option α} (h : (!o.isNone) = true) :
    o.isSome = true := by
  cases o <;> simp_all

/-- Facts about any admissible stack adjacency: the upper state has a table
row and is not the bottom state 0. -/
theorem edge_facts {u : Nat} {σ : String} {v : Nat} (h : edgeOk u σ v = true) :
    (rowLookup v).isSome = true ∧ v ≠ 0 := by
  rw [edgeOk] at h
  split at h
  · exact absurd h (by simp)
  · rename_i row hru
    split at h
    · exact absurd h (by simp)
    · rename_i c hlk
      simp only [Bool.and_eq_true, beq_iff_eq] at h
      obtain ⟨⟨htgt, _⟩, _⟩ := h
      have hcell := cellOK_of hru hlk
      cases c with
      | node s2 cs2 => simp [cellTarget] at htgt
      | int t =>
        rw [cellTarget] at htgt
        obtain rfl : t = v := by injection htgt
        rw [cellOK] at hcell
        simp only [Bool.and_eq_true, bne_iff_ne, ne_eq] at hcell
        exact ⟨isSome_of_not_isNone hcell.2, hcell.1⟩
      | str a =>
        rw [cellTarget] at htgt
        by_cases hss : pyStartsWith a 's'
        · rw [if_pos hss] at htgt
          rw [cellOK, if_pos hss, htgt] at hcell
          simp only [Bool.and_eq_true, bne_iff_ne, ne_eq] at hcell
          obtain ⟨⟨⟨⟨⟨_, hb⟩, hc⟩, _⟩, _⟩, _⟩ := hcell
          exact ⟨isSome_of_not_isNone hc, hb⟩
        · rw [if_neg hss] at htgt; simp at htgt


/-- An admissible adjacency is enumerated by `predsOf`. -/
theorem edge_mem_preds {u : Nat} {σ : String} {v : Nat} (h : edgeOk u σ v = true) :
    (u, σ) ∈ predsOf v := by
  rw [edgeOk] at h
  split at h
  · exact absurd h (by simp)
  · rename_i row hru
    split at h
    · exact absurd h (by simp)
    · rename_i c hlk
      rw [predsOf, List.mem_flatMap]
      refine ⟨u, List.mem_range.mpr (rowLookup_lt hru), ?_⟩
      rw [hru, List.mem_filterMap]
      exact ⟨(σ, c), lookup_mem hlk, by rw [if_pos h]⟩

/-- Extend a backward chain by one admissible adjacency. -/
theorem chain_cons {u : Nat} {σ : String} {v : Nat} {k : Nat} {syms : List String} {w : Nat}
    (hp : (u, σ) ∈ predsOf v) (hc : (syms, w) ∈ backChains k u) :
    (syms ++ [σ], w) ∈ backChains (k + 1) v := by
  rw [backChains, List.mem_flatMap]
  exact ⟨(u, σ), hp, by rw [List.mem_map]; exact ⟨(syms, w), hc, rfl⟩⟩

/-- A production fetched from the grammar list satisfies `ruleMatches`. -/
theorem ruleMatches_of {kk : Nat} {lhs : String} {rhs : List String}
    (h : SLR_grammar.get? kk = some (lhs, rhs)) :
    ruleMatches lhs rhs = true := by
  have hm : (lhs, rhs) ∈ SLR_grammar := List.get?_mem h
  rw [ruleMatches, List.any_eq_true]
  exact ⟨(lhs, rhs), hm, by simp⟩

/-- `treeOKL` over an embedded plain list. -/
theorem treeOKL_plOf {l : List PyVal} (h : ∀ c ∈ l, treeOK c = true) :
    treeOKL (plOf l) = true := by
  induction l with
  | nil => rfl
  | cons a t ih =>
    rw [plOf, treeOKL]
    simp only [Bool.and_eq_true]
    exact ⟨h a (List.mem_cons_self a t), ih (fun c hc => h c (List.mem_cons_of_mem a hc))⟩

/-- Symbols of an embedded plain list. -/
theorem symsOfL_plOf (l : List PyVal) : symsOfL (plOf l) = symsOf l := by
  induction l with
  | nil => rfl
  | cons a t ih => rw [plOf, symsOfL, ih]; rfl

/-- A nonempty plain list embeds to a non-nil children list. -/
theorem isNilL_plOf_cons (a : PyVal) (t : List PyVal) : isNilL (plOf (a :: t)) = false := rfl

/-- A well-formed buffer is preserved when its head, not the end marker, is
consumed. -/
theorem wfBuf_tail {x : String} {xs : List String}
    (h : wfBuf (x :: xs) = true) (hx : x ≠ "$") : wfBuf xs = true := by
  cases xs with
  | nil =>
    rw [wfBuf] at h
    simp at h
    exact absurd h hx
  | cons b t =>
    rw [wfBuf] at h ⊢
    simp only [List.isEmpty_cons, Bool.not_false, Bool.true_and] at h ⊢
    rwa [List.getLast?_cons_cons] at h

/-- The initialized buffer is well formed. -/
theorem wfBuf_init (tokens : List String) : wfBuf (tokens ++ ["$"]) = true := by
  rw [wfBuf]
  simp only [Bool.and_eq_true, Bool.not_eq_true', beq_iff_eq]
  constructor
  · cases tokens <;> simp [List.isEmpty]
  · rw [List.getLast?_concat]

/-- Structure of a well-formed stack: the bottom alone, or a state over a
node over a state with an admissible adjacency and a well-formed remainder. -/
theorem wf_cases {stk : List PyVal} (h : wfStack stk = true) :
    stk = [PyVal.int 0] ∨
    ∃ v σ cs u tail, stk = PyVal.int v :: PyVal.node σ cs :: PyVal.int u :: tail ∧
      edgeOk u σ v = true ∧ treeOK (PyVal.node σ cs) = true ∧
      wfStack (PyVal.int u :: tail) = true := by
  cases stk with
  | nil => rw [show wfStack [] = false from rfl] at h; exact absurd h (by simp)
  | cons a rest =>
    cases a with
    | str s =>
      rw [show wfStack (PyVal.str s :: rest) = false from rfl] at h
      exact absurd h (by simp)
    | node s cs =>
      rw [show wfStack (PyVal.node s cs :: rest) = false from rfl] at h
      exact absurd h (by simp)
    | int v =>
      cases rest with
      | nil =>
        left
        rw [show wfStack [PyVal.int v] = (v == 0) from rfl] at h
        simp only [beq_iff_eq] at h
        rw [h]
      | cons b rest2 =>
        cases b with
        | int m =>
          rw [show wfStack (PyVal.int v :: PyVal.int m :: rest2) = false from rfl] at h
          exact absurd h (by simp)
        | str s =>
          rw [show wfStack (PyVal.int v :: PyVal.str s :: rest2) = false from rfl] at h
          exact absurd h (by simp)
        | node σ cs =>
          right
          cases rest2 with
          | nil =>
            rw [show wfStack [PyVal.int v, PyVal.node σ cs] = false from rfl] at h
            exact absurd h (by simp)
          | cons c tail =>
            cases c with
            | int u =>
              rw [show wfStack (PyVal.int v :: PyVal.node σ cs :: PyVal.int u :: tail) =
                    (edgeOk u σ v && treeOK (PyVal.node σ cs) &&
                      wfStack (PyVal.int u :: tail)) from rfl] at h
              simp only [Bool.and_eq_true] at h
              exact ⟨v, σ, cs, u, tail, rfl, h.1.1, h.1.2, h.2⟩
            | str s =>
              rw [show wfStack (PyVal.int v :: PyVal.node σ cs :: PyVal.str s :: tail) =
                    false from rfl] at h
              exact absurd h (by simp)
            | node s2 cs2 =>
              rw [show wfStack (PyVal.int v :: PyVal.node σ cs :: PyVal.node s2 cs2 :: tail) =
                    false from rfl] at h
              exact absurd h (by simp)

/-- The top of a well-formed stack is a state. -/
theorem wf_head {stk : List PyVal} (h : wfStack stk = true) :
    ∃ s rest, stk = PyVal.int s :: rest := by
  rcases wf_cases h with h1 | ⟨v, σ, cs, u, tail, he, _⟩
  · exact ⟨0, [], h1⟩
  · exact ⟨v, _, he⟩

/-- The top state of a well-formed stack has a table row. -/
theorem wf_top_row {stk : List PyVal} {s : Nat} {rest : List PyVal}
    (h : wfStack stk = true) (he : stk = PyVal.int s :: rest) :
    ∃ row, rowLookup s = some row := by
  rcases wf_cases h with h1 | ⟨v, σ, cs, u, tail, he2, hedge, _⟩
  · rw [h1] at he
    have h0 : PyVal.int 0 = PyVal.int s := by injection he
    have : (0 : Nat) = s := by injection h0
    rw [← this]
    exact ⟨_, rfl⟩
  · rw [he2] at he
    have h0 : PyVal.int v = PyVal.int s := by injection he
    have hv : v = s := by injection h0
    rw [← hv]
    exact Option.isSome_iff_exists.mp (edge_facts hedge).1

/-- Popping pairs from a well-formed stack: on success the exposed state
closes a backward chain carrying exactly the popped node symbols; on failure
a chain shorter than the pop width reaches the bottom state 0. -/
theorem wf_pop : ∀ (k : Nat) (stk : List PyVal) (s : Nat) (rest0 : List PyVal),
    wfStack stk = true → stk = PyVal.int s :: rest0 →
    (∀ children stkRest, popPairs k stk = some (children, stkRest) →
       ∃ u tail2, stkRest = PyVal.int u :: tail2 ∧ wfStack stkRest = true ∧
         (symsOf children, u) ∈ backChains k s ∧ children.length = k ∧
         (∀ c ∈ children, treeOK c = true) ∧ countNodes stk = countNodes stkRest + k) ∧
    (popPairs k stk = none → ∃ j, j < k ∧ ∃ syms, (syms, 0) ∈ backChains j s) := by
  intro k
  induction k with
  | zero =>
    intro stk s rest0 hwf hstk
    constructor
    · intro children stkRest hpp
      rw [show popPairs 0 stk = some ([], stk) from rfl] at hpp
      simp only [Option.some.injEq, Prod.mk.injEq] at hpp
      obtain ⟨hch, hrest⟩ := hpp
      refine ⟨s, rest0, by rw [← hrest, hstk], by rw [← hrest]; exact hwf, ?_, ?_, ?_, ?_⟩
      · rw [← hch]; simp [backChains, symsOf]
      · rw [← hch]; rfl
      · intro c hc; rw [← hch] at hc; simp at hc
      · rw [← hrest]; omega
    · intro hpp
      rw [show popPairs 0 stk = some ([], stk) from rfl] at hpp
      exact absurd hpp (by simp)
  | succ k ih =>
    intro stk s rest0 hwf hstk
    rcases wf_cases hwf with hbot | ⟨v, σ, cs, u1, tail, he, hedge, htree, hwfrest⟩
    · rw [hbot] at hstk
      have h0 : PyVal.int 0 = PyVal.int s := by injection hstk
      have hs : (0 : Nat) = s := by injection h0
      constructor
      · intro children stkRest hpp
        rw [hbot, show popPairs (k + 1) [PyVal.int 0] = none from rfl] at hpp
        exact absurd hpp (by simp)
      · intro _
        exact ⟨0, Nat.succ_pos k, [], by rw [← hs]; simp [backChains]⟩
    · have hsv : v = s := by
        rw [he] at hstk
        have h0 : PyVal.int v = PyVal.int s := by injection hstk
        injection h0
      subst hsv
      have hIH := ih (PyVal.int u1 :: tail) u1 tail hwfrest rfl
      have hpreds : (u1, σ) ∈ predsOf v := edge_mem_preds hedge
      have hmatch : popPairs (k + 1) (PyVal.int v :: PyVal.node σ cs :: PyVal.int u1 :: tail) =
          (match popPairs k (PyVal.int u1 :: tail) with
           | some (children, stk2) => some (children ++ [PyVal.node σ cs], stk2)
           | none => none) := rfl
      constructor
      · intro children stkRest hpp
        rw [he, hmatch] at hpp
        cases hpp2 : popPairs k (PyVal.int u1 :: tail) with
        | none => rw [hpp2] at hpp; exact absurd hpp (by simp)
        | some pr =>
          obtain ⟨children2, stk2⟩ := pr
          rw [hpp2] at hpp
          simp only [Option.some.injEq, Prod.mk.injEq] at hpp
          obtain ⟨hch, hrest⟩ := hpp
          obtain ⟨u2, tail2, hA, hB, hC, hD, hE, hF⟩ := hIH.1 children2 stk2 hpp2
          refine ⟨u2, tail2, by rw [← hrest]; exact hA, by rw [← hrest]; exact hB, ?_, ?_, ?_, ?_⟩
          · rw [← hch]
            have hsy : symsOf (children2 ++ [PyVal.node σ cs]) = symsOf children2 ++ [σ] := by
              simp [symsOf, symOf]
            rw [hsy]
            exact chain_cons hpreds hC
          · rw [← hch]; simp [hD]
          · intro c hc
            rw [← hch] at hc
            rcases List.mem_append.mp hc with hm | hm
            · exact hE c hm
            · simp only [List.mem_singleton] at hm; rw [hm]; exact htree
          · rw [he, ← hrest]
            rw [show countNodes (PyVal.int v :: PyVal.node σ cs :: PyVal.int u1 :: tail) =
                  1 + countNodes (PyVal.int u1 :: tail) from rfl]
            omega
      · intro hpp
        rw [he, hmatch] at hpp
        cases hpp2 : popPairs k (PyVal.int u1 :: tail) with
        | some pr =>
          obtain ⟨children2, stk2⟩ := pr
          rw [hpp2] at hpp
          exact absurd hpp (by simp)
        | none =>
          obtain ⟨j, hj, syms, hmem⟩ := hIH.2 hpp2
          exact ⟨j + 1, Nat.succ_lt_succ hj, syms ++ [σ], chain_cons hpreds hmem⟩

/-- Helper for `wf_accept_root`, by induction on a length bound. -/
theorem wf_accept_root_aux : ∀ (n : Nat) (stk : List PyVal), stk.length ≤ n →
    wfStack stk = true → ∀ v rest, stk = PyVal.int v :: rest → v ≠ 0 →
    ∃ σ cs, stk.reverse.get? 1 = some (PyVal.node σ cs) ∧
      treeOK (PyVal.node σ cs) = true := by
  intro n
  induction n with
  | zero =>
    intro stk hlen hwf v rest he hv
    rw [he] at hlen; simp at hlen
  | succ n ih =>
    intro stk hlen hwf v rest he hv
    rcases wf_cases hwf with hbot | ⟨v2, σ, cs, u, tail, he2, hedge, htree, hwfrest⟩
    · rw [hbot] at he
      have h0 : PyVal.int 0 = PyVal.int v := by injection he
      have h1 : (0 : Nat) = v := by injection h0
      exact absurd h1.symm hv
    · by_cases hu : u = 0
      · subst hu
        have htail : tail = [] := by
          rcases wf_cases hwfrest with hb | ⟨v3, σ3, cs3, u3, t3, he3, hedge3, _, _⟩
          · injection hb with h1 h2
          · have h0 : PyVal.int 0 = PyVal.int v3 := by injection he3
            have h1 : (0 : Nat) = v3 := by injection h0
            exact absurd h1.symm (edge_facts hedge3).2
        subst htail
        rw [he2]
        exact ⟨σ, cs, rfl, htree⟩
      · have hlen2 : (PyVal.int u :: tail).length ≤ n := by
          rw [he2] at hlen; simp at hlen ⊢; omega
        obtain ⟨σ2, cs2, hget, ht2⟩ := ih (PyVal.int u :: tail) hlen2 hwfrest u tail rfl hu
        refine ⟨σ2, cs2, ?_, ht2⟩
        rw [he2]
        have hrev : (PyVal.int v2 :: PyVal.node σ cs :: PyVal.int u :: tail).reverse
            = (PyVal.int u :: tail).reverse ++ [PyVal.node σ cs, PyVal.int v2] := by
          simp
        rw [hrev, List.get?_append]
        · exact hget
        · rcases wf_cases hwfrest with hb | ⟨v3, σ3, cs3, u3, t3, he3, _, _, _⟩
          · injection hb with h1 h2
            have : u = 0 := by injection h1
            exact absurd this hu
          · rw [he3]; simp

/-- At acceptance the entry just above the stack bottom is a tree-invariant
parse node. -/
theorem wf_accept_root {stk : List PyVal} {v : Nat} {rest : List PyVal}
    (hwf : wfStack stk = true) (he : stk = PyVal.int v :: rest) (hv : v ≠ 0) :
    ∃ σ cs, stk.reverse.get? 1 = some (PyVal.node σ cs) ∧
      treeOK (PyVal.node σ cs) = true :=
  wf_accept_root_aux stk.length stk le_rfl hwf v rest he hv

section StepComputation

variable {st : SLRParser} {s : Nat} {rest0 : List PyVal} {x : String} {xs : List String}
variable {row : List (String × PyVal)}

/-- The main loop rejects and records the diagnostic when the action lookup
is undefined. -/
theorem step_reject (hstk : st.stack = PyVal.int s :: rest0)
    (hbufeq : st.input_buffer = x :: xs) (hrow : rowLookup s = some row)
    (hlook : row.lookup x = none) :
    st.step = StepResult.done false
      { st with error_message := some (errorMessageFor s x) } := by
  simp only [SLRParser.step, hstk, hbufeq, hrow, hlook]

/-- The main loop crashes on an integer (goto) cell. -/
theorem step_intcell (hstk : st.stack = PyVal.int s :: rest0)
    (hbufeq : st.input_buffer = x :: xs) (hrow : rowLookup s = some row)
    {n : Nat} (hlook : row.lookup x = some (PyVal.int n)) :
    st.step = StepResult.crash := by
  simp only [SLRParser.step, hstk, hbufeq, hrow, hlook]

/-- The main loop shifts on a parsed shift action. -/
theorem step_shift (hstk : st.stack = PyVal.int s :: rest0)
    (hbufeq : st.input_buffer = x :: xs) (hrow : rowLookup s = some row)
    {a : String} (hlook : row.lookup x = some (PyVal.str a))
    (hss : pyStartsWith a 's' = true) {t : Nat} (hpi : pyInt (a.drop 1) = some t) :
    st.step = StepResult.next
      { st with input_buffer := xs,
                stack := PyVal.int t :: PyVal.node x (plOf []) :: st.stack } := by
  simp only [SLRParser.step, hstk, hbufeq, hrow, hlook, hss, hpi, if_true, SLRParser.shift]

end StepComputation

section StepComputation2

variable {st : SLRParser} {s : Nat} {rest0 : List PyVal} {x : String} {xs : List String}
variable {row : List (String × PyVal)}

/-- The main loop dispatches a reduce action to `reduce` and maps its result. -/
theorem step_reduce_ok (hstk : st.stack = PyVal.int s :: rest0)
    (hbufeq : st.input_buffer = x :: xs) (hrow : rowLookup s = some row)
    {a : String} (hlook : row.lookup x = some (PyVal.str a))
    (hss : pyStartsWith a 's' = false) (hsr : pyStartsWith a 'r' = true)
    {st2 : SLRParser} (hred : st.reduce (a.drop 1) = ReduceResult.ok st2) :
    st.step = StepResult.next st2 := by
  simp only [SLRParser.step, hstk, hbufeq, hrow, hlook, hss, hsr, hred,
    Bool.false_eq_true, if_false, if_true]

/-- The main loop accepts on an `acc` cell, rooting the tree at the entry
above the stack bottom. -/
theorem step_accept (hstk : st.stack = PyVal.int s :: rest0)
    (hbufeq : st.input_buffer = x :: xs) (hrow : rowLookup s = some row)
    (hlook : row.lookup x = some (PyVal.str "acc"))
    {root : PyVal} (hroot : st.stack.reverse.get? 1 = some root) :
    st.step = StepResult.done true { st with parse_tree := some root } := by
  have h1 : pyStartsWith "acc" 's' = false := rfl
  have h2 : pyStartsWith "acc" 'r' = false := rfl
  simp only [SLRParser.step, hstk, hbufeq, hrow, hlook, h1, h2,
    Bool.false_eq_true, if_false]
  rw [← hstk, hroot]
  simp

/-- Epsilon reduction: parse the rule, pop nothing, push the node and then
whatever the goto lookup at the unchanged top state yields. -/
theorem reduce_eps {rn : String} {kk : Nat} {lhs : String}
    (hpi : pyInt rn = some kk)
    (hgr : SLR_grammar.get? kk = some (lhs, ["epsilon"]))
    (hstk : st.stack = PyVal.int s :: rest0) (hrow : rowLookup s = some row)
    {w : PyVal} (hgl : row.lookup lhs = some w) :
    st.reduce rn = ReduceResult.ok
      { st with stack := w :: PyVal.node lhs (plOf []) :: st.stack } := by
  rw [SLRParser.reduce, hpi]
  simp only [hgr, ite_true, if_true, hstk, List.get?, hrow, hgl]

/-- Non-epsilon reduction with a successful pop: push the node over the
exposed remainder and then the goto cell for (exposed state, LHS). -/
theorem reduce_nonEps {rn : String} {kk : Nat} {lhs : String} {rhs : List String}
    (hpi : pyInt rn = some kk)
    (hgr : SLR_grammar.get? kk = some (lhs, rhs))
    (heps : rhs ≠ ["epsilon"])
    {children stkRest : List PyVal}
    (hpp : popPairs rhs.length st.stack = some (children, stkRest))
    {u : Nat} {tail2 : List PyVal} (hrest : stkRest = PyVal.int u :: tail2)
    {rowU : List (String × PyVal)} (hru : rowLookup u = some rowU)
    {w : PyVal} (hgl : rowU.lookup lhs = some w) :
    st.reduce rn = ReduceResult.ok
      { st with stack := w :: PyVal.node lhs (plOf children) :: stkRest } := by
  rw [SLRParser.reduce, hpi]
  simp only [hgr, if_neg heps, hpp, hrest, List.get?, hru, hgl]

end StepComputation2

/-- Unpack a successful goto check. -/
theorem gotoCellOK_elim {s k u : Nat} {lhs : String} (h : gotoCellOK s k u lhs = true) :
    ∃ rowU t, rowLookup u = some rowU ∧ rowU.lookup lhs = some (PyVal.int t) ∧
      t ≠ 57 ∧ t ≠ 62 ∧ (rowLookup t).isSome = true ∧ V s + k ≥ V t + 2 := by
  rw [gotoCellOK] at h
  split at h
  · exact absurd h (by simp)
  · rename_i rowU hru
    split at h
    · rename_i t heq
      simp only [Bool.and_eq_true, bne_iff_ne, ne_eq, ge_iff_le, decide_eq_true_eq] at h
      obtain ⟨⟨⟨h57, h62⟩, hrt⟩, hV⟩ := h
      exact ⟨rowU, t, hru, heq, h57, h62, isSome_of_not_isNone hrt, hV⟩
    · exact absurd h (by simp)

/-- A goto push produces an admissible adjacency. -/
theorem edgeOk_goto {u : Nat} {lhs : String} {t : Nat} {rowU : List (String × PyVal)}
    (hru : rowLookup u = some rowU) (hgl : rowU.lookup lhs = some (PyVal.int t))
    (h57 : t ≠ 57) (h62 : t ≠ 62) : edgeOk u lhs t = true := by
  simp only [edgeOk, hru, hgl, cellTarget]
  simp [h57, h62]

/-- A shift push produces an admissible adjacency. -/
theorem edgeOk_shift {s : Nat} {x : String} {t : Nat} {row : List (String × PyVal)} {a : String}
    (hrow : rowLookup s = some row) (hlook : row.lookup x = some (PyVal.str a))
    (hss : pyStartsWith a 's' = true) (hpi : pyInt (a.drop 1) = some t)
    (hc57 : (t != 57 || x == "boolstr") = true) (hc62 : (t != 62 || x == "comp") = true) :
    edgeOk s x t = true := by
  simp only [edgeOk, hrow, hlook, cellTarget, hss, if_true, hpi]
  simp [hc57, hc62]

/-- The node built by a non-epsilon reduction satisfies the tree invariant. -/
theorem treeOK_node {lhs : String} {children : List PyVal} {rhs : List String}
    (hne : children ≠ []) (hsyms : symsOf children = rhs)
    (hrm : ruleMatches lhs rhs = true) (hall : ∀ c ∈ children, treeOK c = true) :
    treeOK (PyVal.node lhs (plOf children)) = true := by
  rw [treeOK]
  cases children with
  | nil => exact absurd rfl hne
  | cons c0 ctail =>
    simp only [Bool.and_eq_true, Bool.or_eq_true]
    refine ⟨treeOKL_plOf hall, Or.inr ?_⟩
    rw [symsOfL_plOf, hsyms]
    exact hrm

/-- Pushing an admissible pair on a well-formed stack keeps it well formed. -/
theorem wfStack_push {v : Nat} {σ : String} {cs : PyValList} {u : Nat} {tail : List PyVal}
    (hedge : edgeOk u σ v = true) (htree : treeOK (PyVal.node σ cs) = true)
    (hwf : wfStack (PyVal.int u :: tail) = true) :
    wfStack (PyVal.int v :: PyVal.node σ cs :: PyVal.int u :: tail) = true := by
  rw [show wfStack (PyVal.int v :: PyVal.node σ cs :: PyVal.int u :: tail) =
        (edgeOk u σ v && treeOK (PyVal.node σ cs) && wfStack (PyVal.int u :: tail)) from rfl]
  rw [hedge, htree, hwf]
  rfl

/-- Complete classification of one loop iteration from an invariant state:
it steps to a smaller invariant state, rejects recording the offending
(state, symbol) diagnostic, accepts with a tree-invariant root, or crashes on
an unsafe token hitting a goto cell. -/
theorem step_classify (st : SLRParser) (h : EngineInv st) :
    (∃ st2, st.step = StepResult.next st2 ∧ EngineInv st2 ∧
        engineMeasure st2 < engineMeasure st ∧
        (st2.input_buffer = st.input_buffer ∨
          ∃ y, st.input_buffer = y :: st2.input_buffer)) ∨
    (∃ s x row st2, st.step = StepResult.done false st2 ∧
        st2.stack.head? = some (PyVal.int s) ∧ st2.input_buffer.head? = some x ∧
        rowLookup s = some row ∧ row.lookup x = none ∧
        st2.error_message = some (errorMessageFor s x)) ∨
    (∃ st2 t2, st.step = StepResult.done true st2 ∧ st2.parse_tree = some t2 ∧
        treeOK t2 = true) ∨
    (st.step = StepResult.crash ∧ ∃ x, st.input_buffer.head? = some x ∧
        SafeToken x = false) := by
  obtain ⟨hwf, hbuf⟩ := h
  obtain ⟨s, rest0, hstk⟩ := wf_head hwf
  obtain ⟨x, xs, hbufeq⟩ : ∃ x xs, st.input_buffer = x :: xs := by
    cases hb : st.input_buffer with
    | nil => rw [hb, wfBuf] at hbuf; simp at hbuf
    | cons a t => exact ⟨a, t, rfl⟩
  obtain ⟨row, hrow⟩ := wf_top_row hwf hstk
  cases hlook : row.lookup x with
  | none =>
    right; left
    exact ⟨s, x, row, _, step_reject hstk hbufeq hrow hlook,
      by simp [hstk], by simp [hbufeq], hrow, hlook, rfl⟩
  | some c =>
    have hcell : cellOK s x c = true := cellOK_of hrow hlook
    cases c with
    | node s2 cs2 => rw [cellOK] at hcell; exact absurd hcell (by simp)
    | int n =>
      right; right; right
      refine ⟨step_intcell hstk hbufeq hrow hlook, x, by simp [hbufeq], ?_⟩
      by_contra hsf
      rw [Bool.not_eq_false, SafeToken, List.all_eq_true] at hsf
      have hs := hsf s (List.mem_range.mpr (rowLookup_lt hrow))
      simp only [hrow, hlook] at hs
      exact absurd hs (by simp)
    | str a =>
      by_cases hss : pyStartsWith a 's'
      · -- shift action
        rw [cellOK, if_pos hss] at hcell
        cases hpi : pyInt (a.drop 1) with
        | none => rw [hpi] at hcell; exact absurd hcell (by simp)
        | some t =>
          rw [hpi] at hcell
          simp only [Bool.and_eq_true, bne_iff_ne, ne_eq, decide_eq_true_eq] at hcell
          obtain ⟨⟨⟨⟨⟨hxd, ht0⟩, htrow⟩, hVt⟩, hc57⟩, hc62⟩ := hcell
          left
          refine ⟨_, step_shift hstk hbufeq hrow hlook hss hpi, ⟨?_, ?_⟩, ?_,
            Or.inr ⟨x, hbufeq⟩⟩
          · show wfStack (PyVal.int t :: PyVal.node x (plOf []) :: st.stack) = true
            rw [hstk]
            exact wfStack_push (edgeOk_shift hrow hlook hss hpi hc57 hc62) rfl
              (hstk ▸ hwf)
          · exact wfBuf_tail (hbufeq ▸ hbuf) hxd
          · have e1 : engineMeasure { st with input_buffer := xs, stack := PyVal.int t :: PyVal.node x (plOf []) :: st.stack } = 6 * xs.length + countNodes (PyVal.int t :: PyVal.node x (plOf []) :: st.stack) + V t := rfl
            have e2 : engineMeasure st =
                6 * st.input_buffer.length + countNodes st.stack + V (topState st.stack) := rfl
            have e3 : countNodes (PyVal.int t :: PyVal.node x (plOf []) :: st.stack) =
                1 + countNodes st.stack := rfl
            have e4 : topState st.stack = s := by rw [hstk]; rfl
            have e5 : st.input_buffer.length = xs.length + 1 := by rw [hbufeq]; rfl
            rw [e1, e2, e3, e4, e5]
            omega
      · have hssF : pyStartsWith a 's' = false := by
          rw [← Bool.not_eq_true]; exact hss
        by_cases hsr : pyStartsWith a 'r'
        · -- reduce action
          rw [cellOK, if_neg hss, if_pos hsr] at hcell
          cases hpi : pyInt (a.drop 1) with
          | none => simp only [hpi] at hcell; exact absurd hcell (by simp)
          | some kk =>
            simp only [hpi] at hcell
            cases hgr : SLR_grammar.get? kk with
            | none => simp only [hgr] at hcell; exact absurd hcell (by simp)
            | some lr =>
              obtain ⟨lhs, rhs⟩ := lr
              simp only [hgr] at hcell
              by_cases heps : rhs = ["epsilon"]
              · rw [if_pos heps] at hcell
                obtain ⟨rowU, t, hru, hgl, h57, h62, hts, hV⟩ := gotoCellOK_elim hcell
                have hrr : rowU = row := by
                  rw [hru] at hrow; injection hrow
                subst hrr
                subst heps
                have hred := reduce_eps hpi hgr hstk hrow hgl
                left
                refine ⟨_, step_reduce_ok hstk hbufeq hrow hlook hssF hsr hred,
                  ⟨?_, hbuf⟩, ?_, Or.inl rfl⟩
                · show wfStack (PyVal.int t :: PyVal.node lhs (plOf []) :: st.stack) = true
                  rw [hstk]
                  exact wfStack_push (edgeOk_goto hru hgl h57 h62) rfl (hstk ▸ hwf)
                · have e1 : engineMeasure { st with stack := PyVal.int t :: PyVal.node lhs (plOf []) :: st.stack } = 6 * st.input_buffer.length + countNodes (PyVal.int t :: PyVal.node lhs (plOf []) :: st.stack) + V t := rfl
                  have e2 : engineMeasure st =
                      6 * st.input_buffer.length + countNodes st.stack + V (topState st.stack) := rfl
                  have e3 : countNodes (PyVal.int t :: PyVal.node lhs (plOf []) :: st.stack) =
                      1 + countNodes st.stack := rfl
                  have e4 : topState st.stack = s := by rw [hstk]; rfl
                  rw [e1, e2, e3, e4]
                  omega
              · rw [if_neg heps] at hcell
                simp only [Bool.and_eq_true, decide_eq_true_eq] at hcell
                obtain ⟨⟨hlen, hnz⟩, hch⟩ := hcell
                cases hpp : popPairs rhs.length st.stack with
                | none =>
                  exfalso
                  obtain ⟨j, hj, syms, hmem⟩ :=
                    (wf_pop rhs.length st.stack s rest0 hwf hstk).2 hpp
                  rw [List.all_eq_true] at hnz
                  have hz := hnz j (List.mem_range.mpr hj)
                  rw [List.all_eq_true] at hz
                  have hz2 := hz (syms, 0) hmem
                  simp at hz2
                | some pr =>
                  obtain ⟨children, stkRest⟩ := pr
                  obtain ⟨u, tail2, hrest, hwfrest, hchain, hclen, hctree, hcount⟩ :=
                    (wf_pop rhs.length st.stack s rest0 hwf hstk).1 children stkRest hpp
                  rw [List.all_eq_true] at hch
                  have hcc := hch (symsOf children, u) hchain
                  simp only [Bool.and_eq_true, beq_iff_eq] at hcc
                  obtain ⟨hsyms, hgok⟩ := hcc
                  obtain ⟨rowU, t, hru, hgl, h57, h62, hts, hV⟩ := gotoCellOK_elim hgok
                  have hred := reduce_nonEps hpi hgr heps hpp hrest hru hgl
                  left
                  refine ⟨_, step_reduce_ok hstk hbufeq hrow hlook hssF hsr hred,
                    ⟨?_, hbuf⟩, ?_, Or.inl rfl⟩
                  · show wfStack
                      (PyVal.int t :: PyVal.node lhs (plOf children) :: stkRest) = true
                    rw [hrest]
                    refine wfStack_push (edgeOk_goto hru hgl h57 h62) ?_ (hrest ▸ hwfrest)
                    refine treeOK_node ?_ hsyms (ruleMatches_of hgr) hctree
                    intro hcnil
                    rw [hcnil] at hclen
                    simp at hclen
                    omega
                  · have e1 : engineMeasure { st with stack := PyVal.int t :: PyVal.node lhs (plOf children) :: stkRest } = 6 * st.input_buffer.length + countNodes (PyVal.int t :: PyVal.node lhs (plOf children) :: stkRest) + V t := rfl
                    have e2 : engineMeasure st =
                        6 * st.input_buffer.length + countNodes st.stack + V (topState st.stack) := rfl
                    have e3 : countNodes
                        (PyVal.int t :: PyVal.node lhs (plOf children) :: stkRest) =
                        1 + countNodes stkRest := rfl
                    have e4 : topState st.stack = s := by rw [hstk]; rfl
                    rw [e1, e2, e3, e4]
                    omega
        · -- accept or the unreachable fallthrough
          have hsrF : pyStartsWith a 'r' = false := by
            rw [← Bool.not_eq_true]; exact hsr
          rw [cellOK, if_neg hss, if_neg hsr] at hcell
          simp only [Bool.and_eq_true, beq_iff_eq, bne_iff_ne, ne_eq] at hcell
          obtain ⟨ha, hs0⟩ := hcell
          subst ha
          obtain ⟨σ, cs, hroot, htOK⟩ := wf_accept_root hwf hstk hs0
          right; right; left
          exact ⟨_, _, step_accept hstk hbufeq hrow hlook hroot, rfl, htOK⟩

/-- A freshly initialized parser satisfies the engine invariant. -/
theorem engineInv_init (tokens : List String) : EngineInv (parserInit tokens) := by
  constructor
  · rfl
  · exact wfBuf_init tokens

/-- From any invariant state the loop reaches an outcome: strong induction on
the measure. -/
theorem run_exists : ∀ (m : Nat) (st : SLRParser), EngineInv st → engineMeasure st ≤ m →
    ∃ n o, run n st = some o := by
  intro m
  induction m with
  | zero =>
    intro st h hm
    rcases step_classify st h with ⟨st2, hs, _, hlt, _⟩ | ⟨_, _, _, st2, hs, _⟩ |
      ⟨st2, t2, hs, _⟩ | ⟨hs, _⟩
    · omega
    · exact ⟨1, .finished false st2, by rw [run, hs]⟩
    · exact ⟨1, .finished true st2, by rw [run, hs]⟩
    · exact ⟨1, .crashed, by rw [run, hs]⟩
  | succ m ih =>
    intro st h hm
    rcases step_classify st h with ⟨st2, hs, h2, hlt, _⟩ | ⟨_, _, _, st2, hs, _⟩ |
      ⟨st2, t2, hs, _⟩ | ⟨hs, _⟩
    · obtain ⟨n, o, hr⟩ := ih st2 h2 (by omega)
      exact ⟨n + 1, o, by rw [run, hs]; exact hr⟩
    · exact ⟨1, .finished false st2, by rw [run, hs]⟩
    · exact ⟨1, .finished true st2, by rw [run, hs]⟩
    · exact ⟨1, .crashed, by rw [run, hs]⟩

/-- With only safe tokens in the buffer the loop reaches a returned boolean,
never an exception. -/
theorem run_safe : ∀ (m : Nat) (st : SLRParser), EngineInv st →
    st.input_buffer.all SafeToken = true → engineMeasure st ≤ m →
    ∃ n b st2, run n st = some (Outcome.finished b st2) := by
  intro m
  induction m with
  | zero =>
    intro st h hsafe hm
    rcases step_classify st h with ⟨st2, hs, _, hlt, _⟩ | ⟨_, _, _, st2, hs, _⟩ |
      ⟨st2, t2, hs, _⟩ | ⟨hs, x, hx, hunsafe⟩
    · omega
    · exact ⟨1, false, st2, by rw [run, hs]⟩
    · exact ⟨1, true, st2, by rw [run, hs]⟩
    · exfalso
      rw [List.all_eq_true] at hsafe
      have := hsafe x (List.mem_of_mem_head? hx)
      rw [this] at hunsafe
      exact absurd hunsafe (by simp)
  | succ m ih =>
    intro st h hsafe hm
    rcases step_classify st h with ⟨st2, hs, h2, hlt, hbufrel⟩ | ⟨_, _, _, st2, hs, _⟩ |
      ⟨st2, t2, hs, _⟩ | ⟨hs, x, hx, hunsafe⟩
    · have hsafe2 : st2.input_buffer.all SafeToken = true := by
        rcases hbufrel with he | ⟨y, he⟩
        · rw [he]; exact hsafe
        · rw [he, List.all_cons, Bool.and_eq_true] at hsafe
          exact hsafe.2
      obtain ⟨n, b, st3, hr⟩ := ih st2 h2 hsafe2 (by omega)
      exact ⟨n + 1, b, st3, by rw [run, hs]; exact hr⟩
    · exact ⟨1, false, st2, by rw [run, hs]⟩
    · exact ⟨1, true, st2, by rw [run, hs]⟩
    · exfalso
      rw [List.all_eq_true] at hsafe
      have := hsafe x (List.mem_of_mem_head? hx)
      rw [this] at hunsafe
      exact absurd hunsafe (by simp)

/-- Any rejection from an invariant state carries the diagnostic for the
undefined (state, symbol) lookup, with the offending configuration still in
place. -/
theorem run_reject_message : ∀ (n : Nat) (st st2 : SLRParser), EngineInv st →
    run n st = some (Outcome.finished false st2) →
    ∃ s x row, st2.stack.head? = some (PyVal.int s) ∧
      st2.input_buffer.head? = some x ∧ rowLookup s = some row ∧
      row.lookup x = none ∧
      st2.get_error_message = some (errorMessageFor s x) := by
  intro n
  induction n with
  | zero => intro st st2 h hr; rw [run] at hr; exact absurd hr (by simp)
  | succ n ih =>
    intro st st2 h hr
    rw [run] at hr
    rcases step_classify st h with ⟨st3, hs, h3, _, _⟩ | ⟨s, x, row, st3, hs, ha, hb, hc, hd, he⟩ |
      ⟨st3, t2, hs, _⟩ | ⟨hs, _⟩
    · rw [hs] at hr; exact ih st3 st2 h3 hr
    · rw [hs] at hr
      have : st3 = st2 := by
        injection hr with h1
        injection h1 with _ h2
      rw [← this]
      exact ⟨s, x, row, ha, hb, hc, hd, he⟩
    · rw [hs] at hr
      injection hr with h1
      injection h1 with h2
      exact absurd h2.symm (by simp)
    · rw [hs] at hr
      injection hr with h1
      exact absurd h1 (by simp)

/-- Any acceptance from an invariant state yields a parse tree satisfying
the tree-shape invariant. -/
theorem run_accept_tree : ∀ (n : Nat) (st st2 : SLRParser), EngineInv st →
    run n st = some (Outcome.finished true st2) →
    ∃ t2, st2.parse_tree = some t2 ∧ treeOK t2 = true := by
  intro n
  induction n with
  | zero => intro st st2 h hr; rw [run] at hr; exact absurd hr (by simp)
  | succ n ih =>
    intro st st2 h hr
    rw [run] at hr
    rcases step_classify st h with ⟨st3, hs, h3, _, _⟩ | ⟨s, x, row, st3, hs, _⟩ |
      ⟨st3, t2, hs, ht, htOK⟩ | ⟨hs, _⟩
    · rw [hs] at hr; exact ih st3 st2 h3 hr
    · rw [hs] at hr
      injection hr with h1
      injection h1 with h2
      exact absurd h2 (by simp)
    · rw [hs] at hr
      have : st3 = st2 := by
        injection hr with h1
        injection h1 with _ h2
      rw [← this]
      exact ⟨t2, ht, htOK⟩
    · rw [hs] at hr
      injection hr with h1
      exact absurd h1 (by simp)

/-- The invariant is preserved along the iterations of the loop. -/
theorem afterSteps_inv : ∀ (n : Nat) (st c : SLRParser), EngineInv st →
    afterSteps n st = some c → EngineInv c := by
  intro n
  induction n with
  | zero =>
    intro st c h hr
    rw [afterSteps] at hr
    have : st = c := by injection hr
    rw [← this]; exact h
  | succ n ih =>
    intro st c h hr
    rw [afterSteps] at hr
    rcases step_classify st h with ⟨st2, hs, h2, _, _⟩ | ⟨_, _, _, st2, hs, _⟩ |
      ⟨st2, t2, hs, _⟩ | ⟨hs, _⟩
    · rw [hs] at hr; exact ih st2 c h2 hr
    · rw [hs] at hr; exact absurd hr (by simp)
    · rw [hs] at hr; exact absurd hr (by simp)
    · rw [hs] at hr; exact absurd hr (by simp)

/-- Helper for `wf_alt`, by induction on a length bound. -/
theorem wf_alt_aux : ∀ (n : Nat) (stk : List PyVal), stk.length ≤ n →
    wfStack stk = true → altStack stk = true := by
  intro n
  induction n with
  | zero =>
    intro stk hlen hwf
    rcases wf_cases hwf with hbot | ⟨v, σ, cs, u, tail, he, _, _, _⟩
    · rw [hbot] at hlen; simp at hlen
    · rw [he] at hlen; simp at hlen
  | succ n ih =>
    intro stk hlen hwf
    rcases wf_cases hwf with hbot | ⟨v, σ, cs, u, tail, he, _, _, hwfrest⟩
    · rw [hbot]; rfl
    · rw [he,
        show altStack (PyVal.int v :: PyVal.node σ cs :: PyVal.int u :: tail) =
          altStack (PyVal.int u :: tail) from rfl]
      refine ih (PyVal.int u :: tail) ?_ hwfrest
      rw [he] at hlen
      simp at hlen ⊢
      omega

/-- A well-formed stack has the alternating state/node shape. -/
theorem wf_alt {stk : List PyVal} (hwf : wfStack stk = true) : altStack stk = true :=
  wf_alt_aux stk.length stk le_rfl hwf

/-- Helper for `alt_odd`, by induction on a length bound. -/
theorem alt_odd_aux : ∀ (n : Nat) (stk : List PyVal), stk.length ≤ n →
    altStack stk = true → stk.length % 2 = 1 := by
  intro n
  induction n with
  | zero =>
    intro stk hlen halt
    cases stk with
    | nil => rw [show altStack [] = false from rfl] at halt; exact absurd halt (by simp)
    | cons a rest => simp at hlen
  | succ n ih =>
    intro stk hlen halt
    cases stk with
    | nil => rw [show altStack [] = false from rfl] at halt; exact absurd halt (by simp)
    | cons a rest =>
      cases a with
      | str s =>
        rw [show altStack (PyVal.str s :: rest) = false from rfl] at halt
        exact absurd halt (by simp)
      | node σ cs =>
        rw [show altStack (PyVal.node σ cs :: rest) = false from rfl] at halt
        exact absurd halt (by simp)
      | int v =>
        cases rest with
        | nil => rfl
        | cons b rest2 =>
          cases b with
          | int m =>
            rw [show altStack (PyVal.int v :: PyVal.int m :: rest2) = false from rfl] at halt
            exact absurd halt (by simp)
          | str s2 =>
            rw [show altStack (PyVal.int v :: PyVal.str s2 :: rest2) = false from rfl] at halt
            exact absurd halt (by simp)
          | node σ cs =>
            rw [show altStack (PyVal.int v :: PyVal.node σ cs :: rest2) =
                  altStack rest2 from rfl] at halt
            have hrec := ih rest2 (by simp at hlen ⊢; omega) halt
            simp only [List.length_cons]
            omega

/-- Claim C1, counterexample: on the input tokens `["vtype", "x", "semi"]`
the parser does not accept: `parse()` returns `False`, rejecting at state 4
on the symbol `"x"` (the table shifts only the literal terminal name `"id"`
after `vtype`). -/
theorem C1_counterexample :
    run 10 (parserInit ["vtype", "x", "semi"]) = some (Outcome.finished false
      { stack := [PyVal.int 4, PyVal.node "vtype" (plOf []), PyVal.int 0],
        input_buffer := ["x", "semi", "$"],
        error_message := some (errorMessageFor 4 "x"),
        parse_tree := none }) := by
  rfl

/-- Claim C1, amended: on the input tokens `["vtype", "id", "semi"]` (the
grammar's literal terminal names) `parse()` returns `True`, the resulting
tree is `CODE → VDECL(vtype, id, semi), CODE(ε)`, and the pre-order
traversal of `print_parse_tree` reports the symbols in that left-to-right
order. -/
theorem C1_theorem :
    run 10 (parserInit ["vtype", "id", "semi"]) =
        some (Outcome.finished true acceptState_vds) ∧
    acceptState_vds.parse_tree = some tree_vds ∧
    (print_parse_tree tree_vds 0).map Prod.snd =
      ["CODE", "VDECL", "vtype", "id", "semi", "CODE"] := by
  exact ⟨rfl, rfl, rfl⟩

/-- Claim C2: whenever `parse()` ends in rejection after `initialize`, the
rejection comes from an undefined main-loop lookup and the engine records
the diagnostic identifying the offending (state, symbol) pair, retrievable
via `get_error_message`; the goto lookup of `reduce` never fails on a
reachable configuration, so no rejection escapes without a diagnostic. -/
theorem C2_theorem (tokens : List String) (n : Nat) (st2 : SLRParser)
    (h : run n (parserInit tokens) = some (Outcome.finished false st2)) :
    ∃ s x row, st2.stack.head? = some (PyVal.int s) ∧
      st2.input_buffer.head? = some x ∧ rowLookup s = some row ∧
      row.lookup x = none ∧
      st2.get_error_message = some (errorMessageFor s x) :=
  run_reject_message n (parserInit tokens) st2 (engineInv_init tokens) h

/-- Witness for C2 at the concrete rejected input `["vtype", "vtype"]`. -/
theorem C2_witness :
    ∃ s x row, rejState_vtype_vtype.stack.head? = some (PyVal.int s) ∧
      rejState_vtype_vtype.input_buffer.head? = some x ∧
      rowLookup s = some row ∧ row.lookup x = none ∧
      rejState_vtype_vtype.get_error_message = some (errorMessageFor s x) :=
  C2_theorem ["vtype", "vtype"] 2 rejState_vtype_vtype (by rfl)

/-- Claim C3, counterexample: on the input token `"CODE"` (a nonterminal
name) the main loop looks up an integer goto cell and Python raises
`AttributeError` calling `startswith` on an int: `parse()` crashes instead
of returning a boolean. -/
theorem C3_counterexample :
    run 1 (parserInit ["CODE"]) = some Outcome.crashed := by
  rfl

/-- Claim C3, amended: for every finite input whose tokens are safe (never
mapped to an integer goto cell by any table row — in particular any token
outside the grammar's nonterminal names), `parse()` returns a boolean and
never raises. -/
theorem C3_theorem (tokens : List String) (h : tokens.all SafeToken = true) :
    ∃ n b st2, run n (parserInit tokens) = some (Outcome.finished b st2) := by
  refine run_safe (engineMeasure (parserInit tokens)) (parserInit tokens)
    (engineInv_init tokens) ?_ le_rfl
  rw [parserInit, SLRParser.initialize]
  simp only [List.all_append, Bool.and_eq_true]
  exact ⟨h, by rw [List.all_cons, safeToken_end]; rfl⟩

/-- Witness for C3 at the concrete safe input `["vtype", "id", "semi"]`. -/
theorem C3_witness :
    ∃ n b st2, run n (parserInit ["vtype", "id", "semi"]) =
      some (Outcome.finished b st2) :=
  C3_theorem ["vtype", "id", "semi"] (by rfl)

/-- Claim C4: every accepted parse yields a tree in which each node either
has no children (shifted terminals and epsilon reductions) or has children
whose symbols, read left to right, are exactly the RHS of a production of
the grammar whose LHS is the node's symbol (the first-popped node sits
rightmost). -/
theorem C4_theorem (tokens : List String) (n : Nat) (st2 : SLRParser)
    (h : run n (parserInit tokens) = some (Outcome.finished true st2)) :
    ∃ t2, st2.parse_tree = some t2 ∧ treeOK t2 = true :=
  run_accept_tree n (parserInit tokens) st2 (engineInv_init tokens) h

/-- Witness for C4 at the concrete accepted input `["vtype", "id", "semi"]`. -/
theorem C4_witness :
    ∃ t2, acceptState_vds.parse_tree = some t2 ∧ treeOK t2 = true :=
  C4_theorem ["vtype", "id", "semi"] 10 acceptState_vds (by rfl)

/-- Claim C5, counterexample: on the input token `"VDECL"` the process
terminates with an uncaught exception, reaching neither an Accepted nor a
Rejected outcome. -/
theorem C5_counterexample :
    run 1 (parserInit ["VDECL"]) = some Outcome.crashed := by
  rfl

/-- Claim C5, amended: for every finite input token sequence `parse()`
terminates — the loop cannot run forever.  Each iteration shifts, rejects,
accepts, reduces, or raises; the process reaches a returned boolean or an
exception within a finite number of iterations. -/
theorem C5_theorem (tokens : List String) :
    ∃ n o, run n (parserInit tokens) = some o :=
  run_exists (engineMeasure (parserInit tokens)) (parserInit tokens)
    (engineInv_init tokens) le_rfl

/-- Claim C6: reducing by a production whose RHS is the epsilon marker pops
no stack entries (the old stack survives intact under the push), consumes no
input symbol (all fields other than the stack are unchanged), and pushes a
node with an empty children list followed by the goto entry looked up for
(previous top state, LHS). -/
theorem C6_theorem (st : SLRParser) (rn : String) (kk : Nat) (lhs : String)
    (s : Nat) (rest0 : List PyVal) (row : List (String × PyVal)) (w : PyVal)
    (hpi : pyInt rn = some kk)
    (hgr : SLR_grammar.get? kk = some (lhs, ["epsilon"]))
    (hstk : st.stack = PyVal.int s :: rest0)
    (hrow : rowLookup s = some row)
    (hgl : row.lookup lhs = some w) :
    st.reduce rn = ReduceResult.ok
      { st with stack := w :: PyVal.node lhs (plOf []) :: st.stack } :=
  reduce_eps hpi hgr hstk hrow hgl

/-- Witness for C6: the epsilon reduction `CODE → epsilon` (rule 3) on the
freshly initialized empty-input parser. -/
theorem C6_witness :
    (parserInit []).reduce "3" = ReduceResult.ok
      { parserInit [] with
        stack := PyVal.int 1 :: PyVal.node "CODE" (plOf []) ::
          (parserInit []).stack } :=
  C6_theorem (parserInit []) "3" 3 "CODE" 0 [] _ (PyVal.int 1)
    rfl rfl rfl rfl rfl

/-- Claim C7: on the input tokens `["vtype", "vtype"]` `parse()` returns
`False`, and the recorded diagnostic names state 4 — the state reached
immediately after shifting the first `vtype` — and the symbol `"vtype"`,
the actual automaton position at the first point of divergence. -/
theorem C7_theorem :
    run 10 (parserInit ["vtype", "vtype"]) =
        some (Outcome.finished false rejState_vtype_vtype) ∧
    rejState_vtype_vtype.get_error_message =
      some (errorMessageFor 4 "vtype") := by
  exact ⟨rfl, rfl⟩

/-- Claim C8: on the empty input (buffer holding only the end marker) the
first loop iteration performs the epsilon reduction `CODE → epsilon` at the
initial state 0 (goto to state 1), and the next iteration accepts on the end
marker: `parse()` returns `True` with the tree `CODE(ε)`. -/
theorem C8_theorem :
    (parserInit []).step = StepResult.next epsStepState ∧
    run 2 (parserInit []) = some (Outcome.finished true acceptState_empty) ∧
    acceptState_empty.parse_tree = some (PyVal.node "CODE" (plOf [])) := by
  exact ⟨rfl, rfl, rfl⟩

/-- Claim C9: at the start of every main-loop iteration after `initialize`
the stack is one state at the bottom followed by alternating node/state
pairs: its length is odd and its top entry is a state (an integer). -/
theorem C9_theorem (tokens : List String) (n : Nat) (c : SLRParser)
    (h : afterSteps n (parserInit tokens) = some c) :
    altStack c.stack = true ∧ c.stack.length % 2 = 1 ∧
      ∃ m, c.stack.head? = some (PyVal.int m) := by
  have hinv := afterSteps_inv n (parserInit tokens) c (engineInv_init tokens) h
  have halt := wf_alt hinv.1
  refine ⟨halt, alt_odd_aux c.stack.length c.stack le_rfl halt, ?_⟩
  obtain ⟨m, rest, he⟩ := wf_head hinv.1
  exact ⟨m, by rw [he]; rfl⟩

/-- Witness for C9 at the concrete input `["vtype", "id", "semi"]` after two
iterations. -/
theorem C9_witness :
    altStack midState_vds.stack = true ∧ midState_vds.stack.length % 2 = 1 ∧
      ∃ m, midState_vds.stack.head? = some (PyVal.int m) :=
  C9_theorem ["vtype", "id", "semi"] 2 midState_vds (by rfl)

/-- Claim C10: `initialize` touches only the stack (reset to the single
initial state 0) and the input buffer (the tokens with the end marker
appended); the error message and the parse tree of the instance are left
unchanged, so values from a previous parse survive re-initialization. -/
theorem C10_theorem (st : SLRParser) (tokens : List String) :
    ( SLRParser.initialize st tokens).stack = [PyVal.int 0] ∧
    ( SLRParser.initialize st tokens).input_buffer = tokens ++ ["$"] ∧
    ( SLRParser.initialize st tokens).error_message = st.error_message ∧
    ( SLRParser.initialize st tokens).parse_tree = st.parse_tree := by
  exact ⟨rfl, rfl, rfl, rfl⟩

end SLRPy
